import Mathlib

/-!
# modules/dav/fs/dbm.c : the DBM property database of the DAV filesystem repository

A shallow embedding of `dbm.c` in its default build (`DAV_USE_GDBM` undefined,
so every `#else` branch: the SDBM binding), and theorems about it.

* C strings are `String` (a C string holds no NUL character); `ap_pstrcat` is
  concatenation and `ap_pstrdup` the identity.
* A pointer that may be `NULL` is an `Option`.
* An `int` is an `Int`: the one computation on an `int` in dbm.c is
  `strlen(work) - 4` on a path name, whose length is far below `2^31`.
* The `DBM` structure behind `db->file` is mutated in place by the C code; here
  every operation returns the new value of the handle.
* `errno` and the file system are process state: they live in `World`, which is
  passed through every call.
* The functions `dbm.c` calls but does not define (`sdbm_*`, `ap_make_dir`) are
  the fields of `Externs`; the functions of `dbm.c` take an `Externs` argument,
  so a theorem stated for every `Externs` holds whatever the engine does.
-/

namespace DavDbm

/-! ## Data model -/

/-- A byte string. -/
abbrev Bytes := List UInt8

/-- Modelled from the spec: the `datum` of sdbm.h (and `dav_datum` of mod_dav.h, which
`D2G` casts to it), "a byte sequence of explicit length". `dptr = none` is the
absent datum (null data pointer); `dptr = some b` points at the `dsize` bytes `b`. -/
structure datum where
  dptr : Option Bytes
deriving DecidableEq, Repr

/-- The length field of a datum. -/
def datum.dsize (d : datum) : Int :=
  match d.dptr with
  | none => 0
  | some b => (b.length : Int)

/-- The bytes a datum carries (none for the absent datum). -/
def datum.bytes (d : datum) : Bytes :=
  match d.dptr with
  | none => []
  | some b => b

abbrev dav_datum := datum

/-- The cast `#define D2G(d) (*(datum*)&(d))`. -/
def D2G (d : dav_datum) : datum := d

/-- The key/value contents of one database. -/
abbrev Pairs := List (Bytes × Bytes)

/-- Process state: `errno`, the directories and the database files on disk. -/
structure World where
  errno : Int
  dirs : List String
  files : List (String × Pairs)
deriving DecidableEq, Repr

/-- Modelled from the spec: the `DBM` structure of sdbm.h behind `dav_dbm_file`.
`ioerr` is the engine error indicator that `sdbm_error` reads and
`sdbm_clearerr` clears; `rdonly` records a read-only open; `pairs` is the
database contents and `keyptr` the position of the key iteration. -/
structure DBM where
  path : String
  rdonly : Bool
  ioerr : Bool
  pairs : Pairs
  keyptr : Nat
deriving DecidableEq, Repr

abbrev dav_dbm_file := DBM

/-- An `ap_pool_t *`: pools are only passed around, so a pool is its identity
(a `NULL` pool argument is `none : Option ap_pool_t`). -/
abbrev ap_pool_t := Nat

/-- The handle `struct dav_db { ap_pool_t *pool; dav_dbm_file file; }`. -/
structure dav_db where
  pool : ap_pool_t
  file : dav_dbm_file
deriving DecidableEq, Repr

/-- Modelled from the spec: the `dav_error` of mod_dav.h, "a uniform error carrying
an HTTP-style severity tag, an engine-specific numeric error code, a
human-readable message, and the process error number". -/
structure dav_error where
  status : Int
  error_id : Int
  desc : String
  save_errno : Int
deriving DecidableEq, Repr

/-- Modelled from the spec: the `dav_resource` of mod_dav.h as far as dbm.c uses it, the
"Resource Path Pair: (directory path, optional filename)" that
`dav_fs_dir_file_name` of repos.c extracts from it. -/
structure dav_resource where
  dirpath : String
  fname : Option String
deriving DecidableEq, Repr

/-- Modelled from the spec: `dav_fs_dir_file_name` of repos.c, the "function mapping a
resource reference to (directory path, optional filename)". -/
def dav_fs_dir_file_name (resource : dav_resource) : String × Option String :=
  (resource.dirpath, resource.fname)

/-! ## Constants of the headers -/

/-- Modelled from the spec: the macro `DAV_FS_STATE_DIR` of repos.h, the "hidden
subdirectory name"; dbm.c names it in its opening comment: (.DAV). -/
def DAV_FS_STATE_DIR : String := ".DAV"
/-- Modelled from the spec: the macro `DAV_FS_STATE_FILE_FOR_DIR` of repos.h, the
"reserved state for directory base name"; dbm.c names it in its opening
comment: (.state_for_dir). -/
def DAV_FS_STATE_FILE_FOR_DIR : String := ".state_for_dir"
/-- Modelled from the spec: the macro `DIRFEXT` of sdbm.h, the "well-known fixed-length
extension of the primary path"; dbm.c: "we know the extension is 4 characters". -/
def DIRFEXT : String := ".dir"
/-- Modelled from the spec: the macro `PAGFEXT` of sdbm.h, "the engine's secondary
extension", of the same four characters length. -/
def PAGFEXT : String := ".pag"
/-- Modelled from the spec: the macro `DBM_REPLACE` of sdbm.h, the store mode that
"always replaces any existing value for an equal key". -/
def DBM_REPLACE : Int := 1
/-- Modelled from the spec: the macro `DBM_INSERT` of sdbm.h, the other store mode, which
dbm.c never passes. -/
def DBM_INSERT : Int := 0
/-- The status `HTTP_INTERNAL_SERVER_ERROR` of httpd.h. -/
def HTTP_INTERNAL_SERVER_ERROR : Int := 500
/-- The open flags of fcntl.h. -/
def O_RDONLY : Nat := 0
def O_RDWR : Nat := 2
def O_CREAT : Nat := 64
/-- The macro `DAV_FS_MODE_FILE`: `S_IRUSR | S_IWUSR | S_IRGRP | S_IWGRP`, octal 0660. -/
def DAV_FS_MODE_FILE : Nat := 256 ||| 128 ||| 32 ||| 16
/-- The permission `APR_OS_DEFAULT` of APR. -/
def APR_OS_DEFAULT : Nat := 4095
/-- The error numbers of errno.h that the modelled engine leaves in `errno`. -/
def EPERM : Int := 1
def ENOENT : Int := 2
def EIO : Int := 5
def EEXIST : Int := 17
def EINVAL : Int := 22

/-! ## The functions dbm.c calls -/

/-- The engine and APR functions that dbm.c calls and does not define. Each takes
the process state and returns the new one. -/
structure Externs where
  sdbm_open : String → Nat → Nat → World → Option DBM × World
  sdbm_close : DBM → World → World
  sdbm_fetch : DBM → datum → World → datum × DBM × World
  sdbm_store : DBM → datum → datum → Int → World → Int × DBM × World
  sdbm_delete : DBM → datum → World → Int × DBM × World
  sdbm_firstkey : DBM → World → datum × DBM × World
  sdbm_nextkey : DBM → World → datum × DBM × World
  ap_make_dir : String → Nat → ap_pool_t → World → Int × World

/-- Modelled from the spec: the macro `sdbm_error` of sdbm.h, which reads the engine
error indicator of the handle. -/
def sdbm_error (f : DBM) : Bool := f.ioerr

/-- Modelled from the spec: the macro `sdbm_clearerr` of sdbm.h, "error state is
cleared": it resets the engine error indicator and nothing else. -/
def sdbm_clearerr (f : DBM) : DBM := { f with ioerr := false }

/-- Modelled from the spec: `dav_new_error` of mod_dav, which allocates the uniform error
from its status, engine code and message and records the current `errno`. -/
def dav_new_error (_p : Option ap_pool_t) (status : Int) (error_id : Int) (desc : String)
    (w : World) : dav_error :=
  { status := status, error_id := error_id, desc := desc, save_errno := w.errno }

/-- The call `strlen`. -/
def strlen (s : String) : Nat := s.length

/-- The call `memcpy(&dst[off], src, n)` on a string of `strlen dst` characters:
`none` when the copy would fall outside the string. -/
def memcpy (dst : String) (off : Int) (src : String) (n : Nat) : Option String :=
  if 0 ≤ off ∧ off.toNat + n ≤ dst.length ∧ n ≤ src.length then
    some (String.mk (dst.data.take off.toNat ++ src.data.take n ++ dst.data.drop (off.toNat + n)))
  else
    none

/-! ## dbm.c -/

/-- The function `dav_dbm_get_statefiles`: the pair `(*state1, *state2)`. -/
def dav_dbm_get_statefiles (_p : ap_pool_t) (fname : Option String) : Option (String × String) :=
  let fname := match fname with
    | none => DAV_FS_STATE_FILE_FOR_DIR
    | some f => f
  let fname := fname ++ DIRFEXT
  let state1 := fname
  let work := fname
  /- we know the extension is 4 characters -- len(DIRFEXT) -/
  let extension : Int := (strlen work : Int) - 4
  match memcpy work extension PAGFEXT 4 with
  | none => none
  | some work => some (state1, work)

/-- The offset `extension` that `dav_dbm_get_statefiles` computes. -/
def statefiles_extension (fname : Option String) : Int :=
  let fname := match fname with
    | none => DAV_FS_STATE_FILE_FOR_DIR
    | some f => f
  ((strlen (fname ++ DIRFEXT) : Nat) : Int) - 4

/-- The function `dav_fs_dbm_error`. -/
def dav_fs_dbm_error (db : Option dav_db) (p : Option ap_pool_t) (w : World) : dav_error :=
  let save_errno := w.errno
  let p := match db with
    | some d => some d.pool
    | none => p
  /- There might not be a <db> if we had problems creating it. -/
  let errcode : Int := match db with
    | none => 1
    | some d => if sdbm_error d.file then 1 else 0
  let errstr := if errcode ≠ 0 then "I/O error occurred." else "No error."
  let err := dav_new_error p HTTP_INTERNAL_SERVER_ERROR errcode errstr w
  { err with save_errno := save_errno }

/-- The function `dav_fs_ensure_state_dir`: the result of `ap_make_dir` is discarded. -/
def dav_fs_ensure_state_dir (E : Externs) (p : ap_pool_t) (dirname : String) (w : World) : World :=
  let pathname := dirname ++ ("/" ++ DAV_FS_STATE_DIR)
  /- just try to make it, ignoring any resulting errors -/
  (E.ap_make_dir pathname APR_OS_DEFAULT p w).2

/-- What an open returns: the `dav_error *`, the handle written to `*pdb`, and
the process state. -/
structure OpenResult where
  err : Option dav_error
  pdb : Option dav_db
  world : World
deriving DecidableEq, Repr

/-- The flags `ro ? O_RDONLY : (O_RDWR | O_CREAT)`. -/
def open_flags (ro : Int) : Nat := if ro ≠ 0 then O_RDONLY else (O_RDWR ||| O_CREAT)

/-- The function `dav_dbm_open_direct`. -/
def dav_dbm_open_direct (E : Externs) (p : ap_pool_t) (pathname : String) (ro : Int)
    (w : World) : OpenResult :=
  match E.sdbm_open pathname (open_flags ro) DAV_FS_MODE_FILE w with
  | (none, w1) =>
    /- we can't continue if we couldn't open the file and we need to write -/
    if ¬ (ro ≠ 0) then
      { err := some (dav_fs_dbm_error none (some p) w1), pdb := none, world := w1 }
    else
      { err := none, pdb := none, world := w1 }
  | (some file, w1) =>
    /- we have an open database... return it -/
    { err := none, pdb := some { pool := p, file := file }, world := w1 }

/-- The function `dav_dbm_open`. -/
def dav_dbm_open (E : Externs) (p : ap_pool_t) (resource : dav_resource) (ro : Int)
    (w : World) : OpenResult :=
  let (dirpath, fname) := dav_fs_dir_file_name resource
  /- If not opening read-only, ensure the state dir exists -/
  let w1 := if ¬ (ro ≠ 0) then dav_fs_ensure_state_dir E p dirpath w else w
  let pathname := dirpath ++ ("/" ++ DAV_FS_STATE_DIR ++ "/") ++
    (match fname with
     | some f => f
     | none => DAV_FS_STATE_FILE_FOR_DIR)
  dav_dbm_open_direct E p pathname ro w1

/-- The function `dav_dbm_close`. -/
def dav_dbm_close (E : Externs) (db : dav_db) (w : World) : World :=
  E.sdbm_close db.file w

/-- What fetch, firstkey and nextkey return: the `dav_error *`, the datum
written through the out pointer, the handle and the process state. -/
structure DatumResult where
  err : Option dav_error
  pvalue : dav_datum
  db : dav_db
  world : World
deriving DecidableEq, Repr

/-- What store and delete return. -/
structure OpResult where
  err : Option dav_error
  db : dav_db
  world : World
deriving DecidableEq, Repr

/-- What exists returns: the `int`, the handle and the process state. -/
structure ExistsResult where
  found : Int
  db : dav_db
  world : World
deriving DecidableEq, Repr

/-- The function `dav_dbm_fetch`. -/
def dav_dbm_fetch (E : Externs) (db : dav_db) (key : dav_datum) (w : World) : DatumResult :=
  match E.sdbm_fetch db.file (D2G key) w with
  | (value, f1, w1) =>
    /- we don't need the error; we have *pvalue to tell -/
    let f2 := sdbm_clearerr f1
    { err := none, pvalue := value, db := { db with file := f2 }, world := w1 }

/-- The function `dav_dbm_store`. -/
def dav_dbm_store (E : Externs) (db : dav_db) (key value : dav_datum) (w : World) : OpResult :=
  match E.sdbm_store db.file (D2G key) (D2G value) DBM_REPLACE w with
  | (rv, f1, w1) =>
    /- we don't need the error; we have rv to tell -/
    let db1 : dav_db := { db with file := sdbm_clearerr f1 }
    if rv = -1 then
      { err := some (dav_fs_dbm_error (some db1) none w1), db := db1, world := w1 }
    else
      { err := none, db := db1, world := w1 }

/-- The function `dav_dbm_delete`. -/
def dav_dbm_delete (E : Externs) (db : dav_db) (key : dav_datum) (w : World) : OpResult :=
  match E.sdbm_delete db.file (D2G key) w with
  | (rv, f1, w1) =>
    /- we don't need the error; we have rv to tell -/
    let db1 : dav_db := { db with file := sdbm_clearerr f1 }
    if rv = -1 then
      { err := some (dav_fs_dbm_error (some db1) none w1), db := db1, world := w1 }
    else
      { err := none, db := db1, world := w1 }

/-- The function `dav_dbm_exists`. -/
def dav_dbm_exists (E : Externs) (db : dav_db) (key : dav_datum) (w : World) : ExistsResult :=
  match E.sdbm_fetch db.file (D2G key) w with
  | (value, f1, w1) =>
    let f2 := sdbm_clearerr f1 /- unneeded -/
    { found := if value.dptr ≠ none then 1 else 0, db := { db with file := f2 }, world := w1 }

/-- The function `dav_dbm_firstkey`. -/
def dav_dbm_firstkey (E : Externs) (db : dav_db) (w : World) : DatumResult :=
  match E.sdbm_firstkey db.file w with
  | (key, f1, w1) =>
    { err := none, pvalue := key, db := { db with file := sdbm_clearerr f1 }, world := w1 }

/-- The function `dav_dbm_nextkey`: `DAV_DBM_NEXTKEY(f, k)` is `sdbm_nextkey(f)`, the
previous key in `*pkey` is not passed on. -/
def dav_dbm_nextkey (E : Externs) (db : dav_db) (_pkey : dav_datum) (w : World) : DatumResult :=
  match E.sdbm_nextkey db.file w with
  | (key, f1, w1) =>
    { err := none, pvalue := key, db := { db with file := sdbm_clearerr f1 }, world := w1 }

/-- The function `dav_dbm_freedatum`: `DAV_DBM_FREEDATUM` expands to nothing. -/
def dav_dbm_freedatum (_db : dav_db) (_data : dav_datum) (w : World) : World := w

/-! ## The engine as a finite map -/

namespace Model

/-- The value stored under `k`, if any. -/
def getpair : Pairs → Bytes → Option Bytes
  | [], _ => none
  | (k1, v) :: rest, k => if k1 = k then some v else getpair rest k

/-- The contents without the key `k`. -/
def delpair : Pairs → Bytes → Pairs
  | [], _ => []
  | (k1, v) :: rest, k => if k1 = k then delpair rest k else (k1, v) :: delpair rest k

/-- The contents with `k` bound to `v`, any earlier binding of `k` removed. -/
def putpair (ps : Pairs) (k v : Bytes) : Pairs := (k, v) :: delpair ps k

/-- The absent datum. -/
def nullitem : datum := { dptr := none }

/-- The directory part of a path: everything before its last `/`. -/
def dirname (path : String) : String :=
  String.mk ((path.data.reverse.dropWhile (fun c => decide (c ≠ '/'))).drop 1).reverse

/-- Replace (or add) the contents of the database file `path`. -/
def writeFile (files : List (String × Pairs)) (path : String) (ps : Pairs) :
    List (String × Pairs) :=
  (path, ps) :: files.filter (fun f => decide (f.1 ≠ path))

/-- Modelled from the spec: `sdbm_open` of the sdbm library. An existing database is
opened; a missing one is created when `O_CREAT` is given and its directory
exists; otherwise the open fails with `ENOENT` and returns `NULL`. -/
def sdbm_open (pathname : String) (flags : Nat) (_mode : Nat) (w : World) : Option DBM × World :=
  let rdonly := decide (flags &&& 3 = O_RDONLY)
  match w.files.lookup pathname with
  | some ps =>
    (some { path := pathname, rdonly := rdonly, ioerr := false, pairs := ps, keyptr := 0 }, w)
  | none =>
    if flags &&& O_CREAT ≠ 0 ∧ dirname pathname ∈ w.dirs then
      (some { path := pathname, rdonly := rdonly, ioerr := false, pairs := [], keyptr := 0 },
       { w with files := (pathname, []) :: w.files })
    else
      (none, { w with errno := ENOENT })

/-- Modelled from the spec: `sdbm_close` of the sdbm library; the contents of a database
opened for writing are on disk afterwards. -/
def sdbm_close (f : DBM) (w : World) : World :=
  if f.rdonly then w else { w with files := writeFile w.files f.path f.pairs }

/-- Modelled from the spec: `sdbm_fetch` of the sdbm library over "a finite map from byte
strings to byte strings": "the value for key, or an absent Datum if not found". -/
def sdbm_fetch (f : DBM) (key : datum) (w : World) : datum × DBM × World :=
  match key.dptr with
  | none => (nullitem, f, { w with errno := EINVAL })
  | some k =>
    match getpair f.pairs k with
    | some v => ({ dptr := some v }, f, w)
    | none => (nullitem, f, w)

/-- Modelled from the spec: `sdbm_store` of the sdbm library. It fails (-1) for an absent
key and on a read-only handle; with `DBM_REPLACE` it "replaces any existing
value for an equal key"; in insert mode an existing key is kept and 1 returned. -/
def sdbm_store (f : DBM) (key val : datum) (flags : Int) (w : World) : Int × DBM × World :=
  match key.dptr with
  | none => (-1, f, { w with errno := EINVAL })
  | some k =>
    if f.rdonly then (-1, f, { w with errno := EPERM })
    else if flags = DBM_REPLACE then (0, { f with pairs := putpair f.pairs k val.bytes }, w)
    else
      match getpair f.pairs k with
      | some _ => (1, f, w)
      | none => (0, { f with pairs := (k, val.bytes) :: f.pairs }, w)

/-- Modelled from the spec: `sdbm_delete` of the sdbm library. It fails (-1) for an absent
datum as key, on a read-only handle, and ("deleting an absent key is treated as
an engine-level failure") for a key that is not in the database. -/
def sdbm_delete (f : DBM) (key : datum) (w : World) : Int × DBM × World :=
  match key.dptr with
  | none => (-1, f, { w with errno := EINVAL })
  | some k =>
    if f.rdonly then (-1, f, { w with errno := EPERM })
    else
      match getpair f.pairs k with
      | none => (-1, f, w)
      | some _ => (0, { f with pairs := delpair f.pairs k }, w)

/-- The key at the iteration position, which then moves on; absent at the end. -/
def getnext (f : DBM) : datum × DBM :=
  match f.pairs.get? f.keyptr with
  | some (k, _) => ({ dptr := some k }, { f with keyptr := f.keyptr + 1 })
  | none => (nullitem, f)

/-- Modelled from the spec: `sdbm_firstkey` of the sdbm library: restart the iteration. -/
def sdbm_firstkey (f : DBM) (w : World) : datum × DBM × World :=
  match getnext { f with keyptr := 0 } with
  | (d, f1) => (d, f1, w)

/-- Modelled from the spec: `sdbm_nextkey` of the sdbm library: the next key of the
iteration, absent after the last one. -/
def sdbm_nextkey (f : DBM) (w : World) : datum × DBM × World :=
  match getnext f with
  | (d, f1) => (d, f1, w)

/-- Modelled from the spec: `ap_make_dir` of APR: create one directory inside an existing
one; the status is 0 or the error number. -/
def ap_make_dir (path : String) (_perm : Nat) (_p : ap_pool_t) (w : World) : Int × World :=
  if path ∈ w.dirs then (EEXIST, { w with errno := EEXIST })
  else if dirname path ∈ w.dirs then (0, { w with dirs := path :: w.dirs })
  else (ENOENT, { w with errno := ENOENT })

end Model

/-- Modelled from the spec: the sdbm engine and APR, with the engine "a finite map from
byte strings to byte strings". -/
def sdbmModel : Externs where
  sdbm_open := Model.sdbm_open
  sdbm_close := Model.sdbm_close
  sdbm_fetch := Model.sdbm_fetch
  sdbm_store := Model.sdbm_store
  sdbm_delete := Model.sdbm_delete
  sdbm_firstkey := Model.sdbm_firstkey
  sdbm_nextkey := Model.sdbm_nextkey
  ap_make_dir := Model.ap_make_dir

/-- An engine on a failing disk: as `sdbmModel`, except that writing a page
fails, so `sdbm_store` sets the error indicator of the handle, leaves `EIO` in
`errno` and returns -1. -/
def sdbmFailingDisk : Externs where
  sdbm_open := Model.sdbm_open
  sdbm_close := Model.sdbm_close
  sdbm_fetch := Model.sdbm_fetch
  sdbm_store := fun f _ _ _ w => (-1, { f with ioerr := true }, { w with errno := EIO })
  sdbm_delete := Model.sdbm_delete
  sdbm_firstkey := Model.sdbm_firstkey
  sdbm_nextkey := Model.sdbm_nextkey
  ap_make_dir := Model.ap_make_dir

/-! ## Sequences of operations on one handle -/

/-- One call through the hook table on an open handle. -/
inductive Op where
  | fetch (key : dav_datum)
  | store (key value : dav_datum)
  | delete (key : dav_datum)
  | exist (key : dav_datum)
  | firstkey
  | nextkey (pkey : dav_datum)
deriving DecidableEq, Repr

/-- The handle and process state after one call. -/
def step (E : Externs) (s : dav_db × World) : Op → dav_db × World
  | Op.fetch key => let r := dav_dbm_fetch E s.1 key s.2; (r.db, r.world)
  | Op.store key value => let r := dav_dbm_store E s.1 key value s.2; (r.db, r.world)
  | Op.delete key => let r := dav_dbm_delete E s.1 key s.2; (r.db, r.world)
  | Op.exist key => let r := dav_dbm_exists E s.1 key s.2; (r.db, r.world)
  | Op.firstkey => let r := dav_dbm_firstkey E s.1 s.2; (r.db, r.world)
  | Op.nextkey pkey => let r := dav_dbm_nextkey E s.1 pkey s.2; (r.db, r.world)

/-- The handle and process state after a sequence of calls. -/
def run (E : Externs) (s : dav_db × World) (ops : List Op) : dav_db × World :=
  ops.foldl (step E) s

/-- Whether the call is a store under the key `k`. -/
def Op.storesKey (k : dav_datum) : Op → Bool
  | Op.store key _ => decide (key = k)
  | _ => false

/-- Whether the call is a delete of the key `k`. -/
def Op.deletesKey (k : dav_datum) : Op → Bool
  | Op.delete key => decide (key = k)
  | _ => false

/-- A database file just created by a write-mode open: no key, no error. -/
def emptyDb (p : ap_pool_t) (path : String) : dav_db :=
  { pool := p, file := { path := path, rdonly := false, ioerr := false, pairs := [], keyptr := 0 } }

/-- The bytes of a string, as a key or value. -/
def bytesOf (s : String) : Bytes := s.data.map (fun c => c.toNat.toUInt8)

/-- The datum holding the bytes of a string. -/
def datumOf (s : String) : datum := { dptr := some (bytesOf s) }

/-! ## Sample inputs and auxiliary notions -/

/-- Whether `key` is a key of the contents `ps`: it is a byte string (not the
absent datum) and some pair of `ps` has it as its key. -/
def present (ps : Pairs) (key : datum) : Bool :=
  match key.dptr with
  | none => false
  | some k => decide (k ∈ ps.map Prod.fst)

/-- The externs `E` with the status that `ap_make_dir` returns replaced by `st`;
what the call does to the process state is kept. -/
def withMkdirStatus (E : Externs) (st : Int) : Externs :=
  { E with ap_make_dir := fun path perm p w => (st, (E.ap_make_dir path perm p w).2) }

/-- A world with the directory `/d` and the database `/d/.DAV/f` holding `color = red`. -/
def sampleWorld : World :=
  { errno := 0, dirs := ["/d/.DAV", "/d"],
    files := [("/d/.DAV/f", [(bytesOf "color", bytesOf "red")])] }

/-- The base name `dav_dbm_get_statefiles` works on: `fname`, or the reserved name. -/
def stateName (fname : Option String) : String :=
  match fname with
  | none => ".state_for_dir"
  | some f => f

/-- A handle on a database open for writing, holding `color = red`. -/
def sampleDb : dav_db :=
  { pool := 7,
    file := { path := "/d/.DAV/f", rdonly := false, ioerr := false,
              pairs := [(bytesOf "color", bytesOf "red")], keyptr := 0 } }

/-! ## Lemmas on the finite map -/

theorem getpair_eq_none_iff (ps : Pairs) (k : Bytes) :
    Model.getpair ps k = none ↔ k ∉ ps.map Prod.fst := by
  induction ps with
  | nil => simp [Model.getpair]
  | cons a rest ih =>
    obtain ⟨k1, v⟩ := a
    by_cases h : k1 = k
    · simp [Model.getpair, h]
    · have h2 : ¬ k = k1 := fun e => h e.symm
      simp [Model.getpair, h, h2, ih]

theorem getpair_delpair_self (ps : Pairs) (k : Bytes) :
    Model.getpair (Model.delpair ps k) k = none := by
  induction ps with
  | nil => simp [Model.delpair, Model.getpair]
  | cons a rest ih =>
    obtain ⟨k1, v⟩ := a
    by_cases h : k1 = k
    · simpa [Model.delpair, h] using ih
    · simp [Model.delpair, h, Model.getpair, ih]

theorem getpair_delpair_ne (ps : Pairs) (k k2 : Bytes) (h : k2 ≠ k) :
    Model.getpair (Model.delpair ps k2) k = Model.getpair ps k := by
  induction ps with
  | nil => simp [Model.delpair, Model.getpair]
  | cons a rest ih =>
    obtain ⟨k1, v⟩ := a
    by_cases h1 : k1 = k2
    · have h3 : ¬ k1 = k := fun e => h (h1 ▸ e)
      simp [Model.delpair, h1, Model.getpair, ih, h]
    · by_cases h3 : k1 = k
      · subst h3
        simp [Model.delpair, h1, Model.getpair]
      · simp [Model.delpair, h1, Model.getpair, h3, ih]

theorem getpair_putpair_self (ps : Pairs) (k v : Bytes) :
    Model.getpair (Model.putpair ps k v) k = some v := by
  simp [Model.putpair, Model.getpair]

theorem getpair_putpair_ne (ps : Pairs) (k k2 v : Bytes) (h : k2 ≠ k) :
    Model.getpair (Model.putpair ps k2 v) k = Model.getpair ps k := by
  simp [Model.putpair, Model.getpair, h, getpair_delpair_ne ps k k2 h]

/-! ## Opening a database -/

/-- C1: with read-only access requested (`ro` non-zero), `dav_dbm_open_direct` never
returns an error, and the handle `*pdb` is absent exactly when the engine open
(which is called read-only) returned `NULL`; so a failed read-only open gives no
error and an absent handle. -/
theorem dav_dbm_open_direct_readonly (E : Externs) (p : ap_pool_t) (pathname : String)
    (ro : Int) (w : World) (hro : ro ≠ 0) :
    (dav_dbm_open_direct E p pathname ro w).err = none ∧
    ((dav_dbm_open_direct E p pathname ro w).pdb = none ↔
      (E.sdbm_open pathname O_RDONLY DAV_FS_MODE_FILE w).1 = none) ∧
    ((E.sdbm_open pathname O_RDONLY DAV_FS_MODE_FILE w).1 = none →
      (dav_dbm_open_direct E p pathname ro w).err = none ∧
      (dav_dbm_open_direct E p pathname ro w).pdb = none) := by
  have hf : open_flags ro = O_RDONLY := by simp [open_flags, hro]
  unfold dav_dbm_open_direct
  rw [hf]
  rcases h : E.sdbm_open pathname O_RDONLY DAV_FS_MODE_FILE w with ⟨_ | file, w1⟩ <;>
    simp [hro]

theorem dav_dbm_open_direct_readonly_witness :
    (dav_dbm_open_direct sdbmModel 7 "/d/.DAV/nothing" 1 sampleWorld).err = none ∧
    (dav_dbm_open_direct sdbmModel 7 "/d/.DAV/nothing" 1 sampleWorld).pdb = none :=
  (dav_dbm_open_direct_readonly sdbmModel 7 "/d/.DAV/nothing" 1 sampleWorld (by decide)).2.2
    (by decide)

/-- C2: with write access requested (`ro = 0`), `dav_dbm_open_direct` returns an error
if and only if the engine open (called with `O_RDWR | O_CREAT`) returned `NULL`;
then `*pdb` is absent, the error has status `HTTP_INTERNAL_SERVER_ERROR` and its
`save_errno` is the `errno` the engine open left; when the engine open succeeds
there is no error and the handle holds the given pool and the opened file. -/
theorem dav_dbm_open_direct_write (E : Externs) (p : ap_pool_t) (pathname : String)
    (w : World) :
    ((dav_dbm_open_direct E p pathname 0 w).err ≠ none ↔
      (E.sdbm_open pathname (O_RDWR ||| O_CREAT) DAV_FS_MODE_FILE w).1 = none) ∧
    ((E.sdbm_open pathname (O_RDWR ||| O_CREAT) DAV_FS_MODE_FILE w).1 = none →
      (dav_dbm_open_direct E p pathname 0 w).pdb = none ∧
      ∃ e, (dav_dbm_open_direct E p pathname 0 w).err = some e ∧
        e.status = HTTP_INTERNAL_SERVER_ERROR ∧
        e.save_errno = (E.sdbm_open pathname (O_RDWR ||| O_CREAT) DAV_FS_MODE_FILE w).2.errno) ∧
    (∀ file, (E.sdbm_open pathname (O_RDWR ||| O_CREAT) DAV_FS_MODE_FILE w).1 = some file →
      (dav_dbm_open_direct E p pathname 0 w).err = none ∧
      (dav_dbm_open_direct E p pathname 0 w).pdb = some { pool := p, file := file }) := by
  have hf : open_flags 0 = (O_RDWR ||| O_CREAT) := by simp [open_flags]
  unfold dav_dbm_open_direct
  rw [hf]
  rcases h : E.sdbm_open pathname (O_RDWR ||| O_CREAT) DAV_FS_MODE_FILE w with ⟨_ | file, w1⟩ <;>
    simp [dav_fs_dbm_error, dav_new_error]

theorem dav_dbm_open_direct_write_witness :
    ((dav_dbm_open_direct sdbmModel 7 "/nodir/.DAV/f" 0 sampleWorld).pdb = none ∧
      ∃ e, (dav_dbm_open_direct sdbmModel 7 "/nodir/.DAV/f" 0 sampleWorld).err = some e ∧
        e.status = HTTP_INTERNAL_SERVER_ERROR ∧
        e.save_errno = (sdbmModel.sdbm_open "/nodir/.DAV/f" (O_RDWR ||| O_CREAT)
          DAV_FS_MODE_FILE sampleWorld).2.errno) ∧
    ((dav_dbm_open_direct sdbmModel 7 "/d/.DAV/g" 0 sampleWorld).err = none ∧
      (dav_dbm_open_direct sdbmModel 7 "/d/.DAV/g" 0 sampleWorld).pdb =
        some { pool := 7, file := (emptyDb 7 "/d/.DAV/g").file }) :=
  ⟨(dav_dbm_open_direct_write sdbmModel 7 "/nodir/.DAV/f" sampleWorld).2.1 (by decide),
   (dav_dbm_open_direct_write sdbmModel 7 "/d/.DAV/g" sampleWorld).2.2
     (emptyDb 7 "/d/.DAV/g").file (by decide)⟩

theorem state_path_eq (d n : String) :
    d ++ ("/" ++ DAV_FS_STATE_DIR ++ "/") ++ n = d ++ "/" ++ ".DAV" ++ "/" ++ n := by
  simp [DAV_FS_STATE_DIR, String.append_assoc]

/-- C7: `dav_dbm_open` returns exactly what `dav_dbm_open_direct` returns for the path
`d ++ "/" ++ ".DAV" ++ "/" ++ n` (`n` the file name, or `.state_for_dir` when it
is absent) with the same `ro`, in the process state reached after creating
`d ++ "/.DAV"` has been tried when `ro = 0`, and in the unchanged process state
when `ro ≠ 0`; the status that `ap_make_dir` returns does not change the result. -/
theorem dav_dbm_open_eq_open_direct (E : Externs) (p : ap_pool_t) (resource : dav_resource)
    (ro : Int) (w : World) :
    dav_dbm_open E p resource ro w =
      dav_dbm_open_direct E p
        (resource.dirpath ++ "/" ++ ".DAV" ++ "/" ++
          (match resource.fname with
           | some f => f
           | none => ".state_for_dir"))
        ro
        (if ro = 0 then (E.ap_make_dir (resource.dirpath ++ "/.DAV") APR_OS_DEFAULT p w).2
         else w) ∧
    ∀ st : Int, dav_dbm_open (withMkdirStatus E st) p resource ro w = dav_dbm_open E p resource ro w := by
  constructor
  · have h2 : "/" ++ DAV_FS_STATE_DIR = "/.DAV" := by decide
    obtain ⟨d, f⟩ := resource
    by_cases hro : ro = 0
    · subst hro
      cases f <;>
        simp only [dav_dbm_open, dav_fs_dir_file_name, dav_fs_ensure_state_dir, state_path_eq,
          DAV_FS_STATE_FILE_FOR_DIR] <;> simp [h2]
    · cases f <;>
        simp only [dav_dbm_open, dav_fs_dir_file_name, state_path_eq,
          DAV_FS_STATE_FILE_FOR_DIR] <;> simp [hro]
  · intro st
    by_cases hro : ro = 0
    · subst hro
      simp [dav_dbm_open, dav_fs_ensure_state_dir, withMkdirStatus, dav_dbm_open_direct]
    · simp [dav_dbm_open, hro, withMkdirStatus, dav_dbm_open_direct]

/-! ## The state files -/

theorem length_append_ext (f e : String) (he : e.length = 4) :
    (f ++ e).length - 4 = f.data.length := by
  rw [String.length_append, he]
  exact Nat.add_sub_cancel f.length 4

theorem memcpy_extension (f : String) :
    memcpy (f ++ DIRFEXT) (((strlen (f ++ DIRFEXT) : Nat) : Int) - 4) PAGFEXT 4 =
      some (f ++ ".pag") := by
  have hlen : (f ++ DIRFEXT).length = f.data.length + 4 := by
    rw [String.length_append]
    rfl
  have hoff : (((strlen (f ++ DIRFEXT) : Nat) : Int) - 4) = (f.data.length : Int) := by
    unfold strlen
    rw [hlen]
    omega
  rw [hoff]
  unfold memcpy
  have hc : (0 : Int) ≤ (f.data.length : Int) ∧
      ((f.data.length : Int)).toNat + 4 ≤ (f ++ DIRFEXT).length ∧ 4 ≤ PAGFEXT.length := by
    refine ⟨Int.natCast_nonneg _, ?_, by decide⟩
    rw [hlen, Int.toNat_natCast]
  rw [if_pos hc]
  congr 1
  apply String.ext
  rw [Int.toNat_natCast, String.data_append, String.data_append, List.take_left,
    List.drop_append]
  show f.data ++ List.take 4 ['.', 'p', 'a', 'g'] ++ List.drop 4 ['.', 'd', 'i', 'r'] =
    f.data ++ ['.', 'p', 'a', 'g']
  simp

/-- C8: in the SDBM binding `dav_dbm_get_statefiles` returns, for every file name
(the reserved `.state_for_dir` when it is absent; the empty name included),
`state1 = fname ++ ".dir"` and `state2 = fname ++ ".pag"`: the copy stays inside
the string, `state2` is as long as `state1`, the two agree before the final four
characters, and the offset `strlen(work) - 4` is not negative. -/
theorem dav_dbm_get_statefiles_eq (p : ap_pool_t) (fname : Option String) :
    dav_dbm_get_statefiles p fname =
      some (stateName fname ++ ".dir", stateName fname ++ ".pag") ∧
    (stateName fname ++ ".pag").length = (stateName fname ++ ".dir").length ∧
    (stateName fname ++ ".pag").data.take ((stateName fname ++ ".dir").length - 4) =
      (stateName fname ++ ".dir").data.take ((stateName fname ++ ".dir").length - 4) ∧
    (stateName fname ++ ".pag").data.drop ((stateName fname ++ ".dir").length - 4) =
      ['.', 'p', 'a', 'g'] ∧
    statefiles_extension fname = ((stateName fname ++ ".dir").length : Int) - 4 ∧
    0 ≤ statefiles_extension fname := by
  have hname : (match fname with
      | none => DAV_FS_STATE_FILE_FOR_DIR
      | some f => f) = stateName fname := by
    cases fname <;> rfl
  have hext : statefiles_extension fname = ((stateName fname ++ ".dir").length : Int) - 4 := by
    unfold statefiles_extension
    simp only [hname]
    rfl
  have hl : (stateName fname ++ ".dir").length - 4 = (stateName fname).data.length :=
    length_append_ext _ _ rfl
  refine ⟨?_, ?_, ?_, ?_, hext, ?_⟩
  · unfold dav_dbm_get_statefiles
    simp only [hname]
    rw [memcpy_extension]
    rfl
  · rw [String.length_append, String.length_append]
    rfl
  · rw [hl, String.data_append, String.data_append, List.take_left, List.take_left]
  · rw [hl, String.data_append, List.drop_left' rfl]
  · rw [hext, String.length_append]
    have h4 : ".dir".length = 4 := rfl
    rw [h4]
    omega

/-! ## The handle after store and delete -/

theorem dav_dbm_store_db (E : Externs) (db : dav_db) (key value : dav_datum) (w : World) :
    (dav_dbm_store E db key value w).db =
      { pool := db.pool,
        file := sdbm_clearerr (E.sdbm_store db.file (D2G key) (D2G value) DBM_REPLACE w).2.1 } := by
  unfold dav_dbm_store
  rcases h : E.sdbm_store db.file (D2G key) (D2G value) DBM_REPLACE w with ⟨rv, f1, w1⟩
  by_cases hrv : rv = -1 <;> simp [hrv]

theorem dav_dbm_store_err_none (E : Externs) (db : dav_db) (key value : dav_datum) (w : World) :
    (dav_dbm_store E db key value w).err = none ↔
      (E.sdbm_store db.file (D2G key) (D2G value) DBM_REPLACE w).1 ≠ -1 := by
  unfold dav_dbm_store
  rcases h : E.sdbm_store db.file (D2G key) (D2G value) DBM_REPLACE w with ⟨rv, f1, w1⟩
  by_cases hrv : rv = -1 <;> simp [hrv]

theorem dav_dbm_delete_db (E : Externs) (db : dav_db) (key : dav_datum) (w : World) :
    (dav_dbm_delete E db key w).db =
      { db with file := sdbm_clearerr (E.sdbm_delete db.file (D2G key) w).2.1 } := by
  unfold dav_dbm_delete
  rcases h : E.sdbm_delete db.file (D2G key) w with ⟨rv, f1, w1⟩
  by_cases hrv : rv = -1 <;> simp [hrv]

theorem dav_dbm_delete_err_none (E : Externs) (db : dav_db) (key : dav_datum) (w : World) :
    (dav_dbm_delete E db key w).err = none ↔ (E.sdbm_delete db.file (D2G key) w).1 ≠ -1 := by
  unfold dav_dbm_delete
  rcases h : E.sdbm_delete db.file (D2G key) w with ⟨rv, f1, w1⟩
  by_cases hrv : rv = -1 <;> simp [hrv]

/-! ## The engine error indicator -/

/-- C9: whatever the engine does and whatever state the handle was in (its error
indicator set or not), after each of `dav_dbm_fetch`, `dav_dbm_store`,
`dav_dbm_delete`, `dav_dbm_exists`, `dav_dbm_firstkey` and `dav_dbm_nextkey`
returns, with or without an error, the engine error indicator of the handle is
clear. -/
theorem error_indicator_clear_after_each (E : Externs) (db : dav_db) (key value pkey : dav_datum)
    (w : World) :
    sdbm_error (dav_dbm_fetch E db key w).db.file = false ∧
    sdbm_error (dav_dbm_store E db key value w).db.file = false ∧
    sdbm_error (dav_dbm_delete E db key w).db.file = false ∧
    sdbm_error (dav_dbm_exists E db key w).db.file = false ∧
    sdbm_error (dav_dbm_firstkey E db w).db.file = false ∧
    sdbm_error (dav_dbm_nextkey E db pkey w).db.file = false := by
  refine ⟨?_, ?_, ?_, ?_, ?_, ?_⟩
  · simp [dav_dbm_fetch, sdbm_error, sdbm_clearerr]
  · rw [dav_dbm_store_db]
    rfl
  · rw [dav_dbm_delete_db]
    rfl
  · simp [dav_dbm_exists, sdbm_error, sdbm_clearerr]
  · simp [dav_dbm_firstkey, sdbm_error, sdbm_clearerr]
  · simp [dav_dbm_nextkey, sdbm_error, sdbm_clearerr]

/-! ## Store and delete failures -/

/-- The error `dav_dbm_store` returns when the engine store returns -1: whatever
the engine did to the error indicator, the handle reaches `dav_fs_dbm_error` with
the indicator already cleared, so the engine code is 0 and the message is
"No error.". -/
theorem dav_dbm_store_error (E : Externs) (db : dav_db) (key value : dav_datum) (w : World)
    (hrv : (E.sdbm_store db.file (D2G key) (D2G value) DBM_REPLACE w).1 = -1) :
    (dav_dbm_store E db key value w).err =
      some { status := HTTP_INTERNAL_SERVER_ERROR, error_id := 0, desc := "No error.",
             save_errno := (E.sdbm_store db.file (D2G key) (D2G value) DBM_REPLACE w).2.2.errno } := by
  unfold dav_dbm_store
  rcases h : E.sdbm_store db.file (D2G key) (D2G value) DBM_REPLACE w with ⟨rv, f1, w1⟩
  rw [h] at hrv
  simp only at hrv
  subst hrv
  simp [dav_fs_dbm_error, dav_new_error, sdbm_error, sdbm_clearerr]

/-- C5: on a failing disk the engine store returns -1 with the error indicator of the
handle set, and `dav_dbm_store` returns an error whose engine code is 0 and whose
message is "No error.": the indicator is cleared before `dav_fs_dbm_error`
reads it. -/
theorem dav_dbm_store_loses_io_error :
    (sdbmFailingDisk.sdbm_store sampleDb.file (datumOf "size") (datumOf "big") DBM_REPLACE
      sampleWorld).1 = -1 ∧
    sdbm_error (sdbmFailingDisk.sdbm_store sampleDb.file (datumOf "size") (datumOf "big")
      DBM_REPLACE sampleWorld).2.1 = true ∧
    (dav_dbm_store sdbmFailingDisk sampleDb (datumOf "size") (datumOf "big") sampleWorld).err =
      some { status := 500, error_id := 0, desc := "No error.", save_errno := EIO } := by
  decide

/-- Over the finite-map engine, deleting a key that is not in the database returns
an error. -/
theorem model_delete_absent_key (db : dav_db) (key : dav_datum) (w : World)
    (hp : present db.file.pairs key = false) :
    (sdbmModel.sdbm_delete db.file (D2G key) w).1 = -1 := by
  unfold present at hp
  rcases hk : key.dptr with _ | k
  · simp [sdbmModel, Model.sdbm_delete, D2G, hk]
  · rw [hk] at hp
    have hnone : Model.getpair db.file.pairs k = none := by
      rw [getpair_eq_none_iff]
      simpa using hp
    by_cases hr : db.file.rdonly = true <;>
      simp [sdbmModel, Model.sdbm_delete, D2G, hk, hr, hnone]

/-- C6: whatever the engine, `dav_dbm_delete` returns an error if and only if the
engine delete returns -1, and no error otherwise; the error has status
`HTTP_INTERNAL_SERVER_ERROR` and its `save_errno` is the `errno` the engine
delete left. So a delete that the engine reports as failed, such as that of a
key that is absent, comes back as an error and not as a success. -/
theorem dav_dbm_delete_error_iff (E : Externs) (db : dav_db) (key : dav_datum) (w : World) :
    ((dav_dbm_delete E db key w).err ≠ none ↔ (E.sdbm_delete db.file (D2G key) w).1 = -1) ∧
    ((E.sdbm_delete db.file (D2G key) w).1 = -1 →
      ∃ e, (dav_dbm_delete E db key w).err = some e ∧
        e.status = HTTP_INTERNAL_SERVER_ERROR ∧
        e.save_errno = (E.sdbm_delete db.file (D2G key) w).2.2.errno) ∧
    ((E.sdbm_delete db.file (D2G key) w).1 ≠ -1 → (dav_dbm_delete E db key w).err = none) := by
  unfold dav_dbm_delete
  rcases h : E.sdbm_delete db.file (D2G key) w with ⟨rv, f1, w1⟩
  by_cases hrv : rv = -1 <;> simp [hrv, dav_fs_dbm_error, dav_new_error]

theorem dav_dbm_delete_error_iff_witness :
    ∃ e, (dav_dbm_delete sdbmModel (emptyDb 7 "/d/.DAV/g") (datumOf "missing-key")
        sampleWorld).err = some e ∧
      e.status = HTTP_INTERNAL_SERVER_ERROR ∧
      e.save_errno = (sdbmModel.sdbm_delete (emptyDb 7 "/d/.DAV/g").file
        (D2G (datumOf "missing-key")) sampleWorld).2.2.errno :=
  (dav_dbm_delete_error_iff sdbmModel (emptyDb 7 "/d/.DAV/g") (datumOf "missing-key")
    sampleWorld).2.1 (by decide)

/-! ## The contents of the finite-map engine along a sequence of calls -/

theorem model_fetch_pairs (f : DBM) (key : datum) (w : World) :
    (Model.sdbm_fetch f key w).2.1.pairs = f.pairs := by
  unfold Model.sdbm_fetch
  rcases hk : key.dptr with _ | k
  · rfl
  · rcases hg : Model.getpair f.pairs k with _ | v <;> simp [hg]

theorem model_getnext_pairs (f : DBM) : (Model.getnext f).2.pairs = f.pairs := by
  unfold Model.getnext
  rcases hg : f.pairs.get? f.keyptr with _ | ⟨k, v⟩ <;> simp

theorem model_fetch_value (f : DBM) (key : datum) (w : World) :
    (Model.sdbm_fetch f key w).1 =
      match key.dptr with
      | none => Model.nullitem
      | some k => { dptr := Model.getpair f.pairs k } := by
  unfold Model.sdbm_fetch
  rcases hk : key.dptr with _ | k
  · rfl
  · rcases hg : Model.getpair f.pairs k with _ | v <;> simp [hg, Model.nullitem]

theorem model_store_getpair_ne (f : DBM) (key val : datum) (w : World) (k : Bytes)
    (hne : key ≠ { dptr := some k }) :
    Model.getpair (Model.sdbm_store f key val DBM_REPLACE w).2.1.pairs k =
      Model.getpair f.pairs k := by
  unfold Model.sdbm_store
  rcases hk : key.dptr with _ | k2
  · rfl
  · have hkk : k2 ≠ k := by
      intro e
      apply hne
      cases key
      simp_all
    by_cases hr : f.rdonly = true
    · simp [hr]
    · simp [hr, getpair_putpair_ne _ _ _ _ hkk]

theorem model_delete_getpair_ne (f : DBM) (key : datum) (w : World) (k : Bytes)
    (hne : key ≠ { dptr := some k }) :
    Model.getpair (Model.sdbm_delete f key w).2.1.pairs k = Model.getpair f.pairs k := by
  unfold Model.sdbm_delete
  rcases hk : key.dptr with _ | k2
  · rfl
  · have hkk : k2 ≠ k := by
      intro e
      apply hne
      cases key
      simp_all
    by_cases hr : f.rdonly = true
    · simp [hr]
    · rcases hg : Model.getpair f.pairs k2 with _ | v
      · simp [hr, hg]
      · simp [hr, hg, getpair_delpair_ne _ _ _ hkk]

theorem model_delete_getpair_none (f : DBM) (key : datum) (w : World) (k : Bytes)
    (h : Model.getpair f.pairs k = none) :
    Model.getpair (Model.sdbm_delete f key w).2.1.pairs k = none := by
  by_cases hne : key = { dptr := some k }
  · subst hne
    simp [Model.sdbm_delete, h]
    by_cases hr : f.rdonly = true <;> simp [hr, h]
  · rw [model_delete_getpair_ne f key w k hne, h]

/-- A call that is neither a store nor a delete of the key `k` leaves the value
bound to `k` as it was. -/
theorem step_getpair (s : dav_db × World) (op : Op) (k : Bytes)
    (hs : op.storesKey { dptr := some k } = false)
    (hd : op.deletesKey { dptr := some k } = false) :
    Model.getpair (step sdbmModel s op).1.file.pairs k = Model.getpair s.1.file.pairs k := by
  cases op with
  | fetch key =>
    simp [step, dav_dbm_fetch, sdbmModel, sdbm_clearerr, D2G, model_fetch_pairs]
  | store key value =>
    have hne : key ≠ { dptr := some k } := by simpa [Op.storesKey] using hs
    simp only [step, dav_dbm_store_db]
    exact model_store_getpair_ne s.1.file key value s.2 k hne
  | delete key =>
    have hne : key ≠ { dptr := some k } := by simpa [Op.deletesKey] using hd
    simp only [step, dav_dbm_delete_db]
    exact model_delete_getpair_ne s.1.file key s.2 k hne
  | exist key =>
    simp [step, dav_dbm_exists, sdbmModel, sdbm_clearerr, D2G, model_fetch_pairs]
  | firstkey =>
    simp [step, dav_dbm_firstkey, sdbmModel, sdbm_clearerr, Model.sdbm_firstkey,
      model_getnext_pairs]
  | nextkey pkey =>
    simp [step, dav_dbm_nextkey, sdbmModel, sdbm_clearerr, Model.sdbm_nextkey,
      model_getnext_pairs]

/-- A call that is not a store of the key `k` leaves `k` unbound if it was. -/
theorem step_getpair_none (s : dav_db × World) (op : Op) (k : Bytes)
    (hs : op.storesKey { dptr := some k } = false)
    (h : Model.getpair s.1.file.pairs k = none) :
    Model.getpair (step sdbmModel s op).1.file.pairs k = none := by
  by_cases hd : op.deletesKey { dptr := some k } = false
  · rw [step_getpair s op k hs hd, h]
  · cases op with
    | delete key =>
      simp only [step, dav_dbm_delete_db]
      exact model_delete_getpair_none s.1.file key s.2 k h
    | _ => simp [Op.deletesKey] at hd

theorem run_getpair (ops : List Op) (s : dav_db × World) (k : Bytes)
    (hs : ∀ op ∈ ops, op.storesKey { dptr := some k } = false)
    (hd : ∀ op ∈ ops, op.deletesKey { dptr := some k } = false) :
    Model.getpair (run sdbmModel s ops).1.file.pairs k = Model.getpair s.1.file.pairs k := by
  induction ops generalizing s with
  | nil => rfl
  | cons op rest ih =>
    have h1 := ih (step sdbmModel s op) (fun o ho => hs o (List.mem_cons_of_mem _ ho))
      (fun o ho => hd o (List.mem_cons_of_mem _ ho))
    simp only [run, List.foldl_cons] at h1 ⊢
    rw [h1]
    exact step_getpair s op k (hs op (List.mem_cons_self _ _)) (hd op (List.mem_cons_self _ _))

theorem run_getpair_none (ops : List Op) (s : dav_db × World) (k : Bytes)
    (hs : ∀ op ∈ ops, op.storesKey { dptr := some k } = false)
    (h : Model.getpair s.1.file.pairs k = none) :
    Model.getpair (run sdbmModel s ops).1.file.pairs k = none := by
  induction ops generalizing s with
  | nil => exact h
  | cons op rest ih =>
    have h0 := step_getpair_none s op k (hs op (List.mem_cons_self _ _)) h
    have h1 := ih (step sdbmModel s op) (fun o ho => hs o (List.mem_cons_of_mem _ ho)) h0
    simpa only [run, List.foldl_cons] using h1

/-- What `dav_dbm_fetch` writes over the finite-map engine. -/
theorem model_dav_dbm_fetch (db : dav_db) (key : dav_datum) (w : World) :
    (dav_dbm_fetch sdbmModel db key w).err = none ∧
    (dav_dbm_fetch sdbmModel db key w).pvalue =
      match key.dptr with
      | none => Model.nullitem
      | some k => { dptr := Model.getpair db.file.pairs k } := by
  constructor
  · rfl
  · have h := model_fetch_value db.file key w
    simpa [dav_dbm_fetch, sdbmModel, D2G] using h

/-- A successful `dav_dbm_store` over the finite-map engine had a byte string as
key and left the stored bytes bound to it. -/
theorem model_store_ok (db : dav_db) (key value : dav_datum) (w : World)
    (h : (dav_dbm_store sdbmModel db key value w).err = none) :
    ∃ k, key.dptr = some k ∧
      Model.getpair (dav_dbm_store sdbmModel db key value w).db.file.pairs k =
        some value.bytes := by
  rw [dav_dbm_store_err_none] at h
  rw [dav_dbm_store_db]
  rcases hk : key.dptr with _ | k
  · exfalso
    apply h
    simp [sdbmModel, Model.sdbm_store, D2G, hk]
  · refine ⟨k, rfl, ?_⟩
    by_cases hr : db.file.rdonly = true
    · exfalso
      apply h
      simp [sdbmModel, Model.sdbm_store, D2G, hk, hr]
    · simp [sdbmModel, Model.sdbm_store, D2G, hk, hr, sdbm_clearerr, getpair_putpair_self]

/-- A successful `dav_dbm_delete` over the finite-map engine had a byte string as
key and left it unbound. -/
theorem model_delete_ok (db : dav_db) (key : dav_datum) (w : World)
    (h : (dav_dbm_delete sdbmModel db key w).err = none) :
    ∃ k, key.dptr = some k ∧
      Model.getpair (dav_dbm_delete sdbmModel db key w).db.file.pairs k = none := by
  rw [dav_dbm_delete_err_none] at h
  rw [dav_dbm_delete_db]
  rcases hk : key.dptr with _ | k
  · exfalso
    apply h
    simp [sdbmModel, Model.sdbm_delete, D2G, hk]
  · refine ⟨k, rfl, ?_⟩
    by_cases hr : db.file.rdonly = true
    · exfalso
      apply h
      simp [sdbmModel, Model.sdbm_delete, D2G, hk, hr]
    · rcases hg : Model.getpair db.file.pairs k with _ | v
      · exfalso
        apply h
        simp [sdbmModel, Model.sdbm_delete, D2G, hk, hr, hg]
      · simp [sdbmModel, Model.sdbm_delete, D2G, hk, hr, hg, sdbm_clearerr,
          getpair_delpair_self]

theorem datum_eq_of_dptr (key : datum) (k : Bytes) (h : key.dptr = some k) :
    key = { dptr := some k } := by
  cases key
  simp_all

/-! ## Store, fetch, exists -/

theorem run_append (E : Externs) (s : dav_db × World) (a b : List Op) :
    run E s (a ++ b) = run E (run E s a) b := by
  simp [run, List.foldl_append]

theorem run_cons (E : Externs) (s : dav_db × World) (op : Op) (rest : List Op) :
    run E s (op :: rest) = run E (step E s op) rest := rfl

theorem dsize_some_bytes (v : datum) : datum.dsize { dptr := some v.bytes } = v.dsize := by
  cases v with
  | mk d => cases d <;> rfl

/-- Over the finite-map engine, on any handle: after a `dav_dbm_store(k, v)` that
returns no error and then any calls that neither delete `k` nor store under `k`,
`dav_dbm_fetch(k)` returns no error and yields the bytes of `v`. -/
theorem model_store_then_fetch (s : dav_db × World) (key v : dav_datum) (after : List Op)
    (h : (dav_dbm_store sdbmModel s.1 key v s.2).err = none)
    (hnd : ∀ op ∈ after, op.deletesKey key = false)
    (hns : ∀ op ∈ after, op.storesKey key = false) :
    (dav_dbm_fetch sdbmModel (run sdbmModel s (Op.store key v :: after)).1 key
      (run sdbmModel s (Op.store key v :: after)).2).err = none ∧
    (dav_dbm_fetch sdbmModel (run sdbmModel s (Op.store key v :: after)).1 key
      (run sdbmModel s (Op.store key v :: after)).2).pvalue = { dptr := some v.bytes } := by
  obtain ⟨k, hk, hget⟩ := model_store_ok s.1 key v s.2 h
  have hkey : key = { dptr := some k } := datum_eq_of_dptr key k hk
  have hrun : Model.getpair (run sdbmModel s (Op.store key v :: after)).1.file.pairs k
      = some v.bytes := by
    rw [run_cons,
      run_getpair after _ k (fun o ho => hkey ▸ hns o ho) (fun o ho => hkey ▸ hnd o ho)]
    exact hget
  have hf := model_dav_dbm_fetch (run sdbmModel s (Op.store key v :: after)).1 key
    (run sdbmModel s (Op.store key v :: after)).2
  refine ⟨hf.1, ?_⟩
  rw [hf.2, hk]
  simp only [hrun]

/-- C3: over the finite-map engine, for every handle, key `k` and values `v1`, `v2`,
with `after` any calls that neither delete `k` nor store under `k`.
Round trip: after a `dav_dbm_store(k, v1)` that returns no error and then `after`,
`dav_dbm_fetch(k)` returns no error and yields exactly the bytes of `v1`, with
the length of `v1`.
Replacement: after `dav_dbm_store(k, v1)`, any calls `between`, and
`dav_dbm_store(k, v2)`, both stores returning no error, and then `after`,
`dav_dbm_fetch(k)` returns no error and yields exactly the bytes of `v2`, with
the length of `v2`, and not those of `v1` when they differ. With `between` and
`after` empty these are store, fetch and store, store, fetch; `dav_dbm_store`
calls the engine in replace mode. -/
theorem store_store_fetch (db : dav_db) (key v1 v2 : dav_datum) (w : World)
    (between after : List Op)
    (hnd : ∀ op ∈ after, op.deletesKey key = false)
    (hns : ∀ op ∈ after, op.storesKey key = false) :
    ((dav_dbm_store sdbmModel db key v1 w).err = none →
      (dav_dbm_fetch sdbmModel (run sdbmModel (db, w) (Op.store key v1 :: after)).1 key
        (run sdbmModel (db, w) (Op.store key v1 :: after)).2).err = none ∧
      (dav_dbm_fetch sdbmModel (run sdbmModel (db, w) (Op.store key v1 :: after)).1 key
        (run sdbmModel (db, w) (Op.store key v1 :: after)).2).pvalue
          = { dptr := some v1.bytes } ∧
      (dav_dbm_fetch sdbmModel (run sdbmModel (db, w) (Op.store key v1 :: after)).1 key
        (run sdbmModel (db, w) (Op.store key v1 :: after)).2).pvalue.dsize = v1.dsize) ∧
    ((dav_dbm_store sdbmModel db key v1 w).err = none →
      (dav_dbm_store sdbmModel
        (run sdbmModel (db, w) (Op.store key v1 :: between)).1 key v2
        (run sdbmModel (db, w) (Op.store key v1 :: between)).2).err = none →
      (dav_dbm_fetch sdbmModel
        (run sdbmModel (db, w) (Op.store key v1 :: between ++ Op.store key v2 :: after)).1 key
        (run sdbmModel (db, w) (Op.store key v1 :: between ++ Op.store key v2 :: after)).2).err
          = none ∧
      (dav_dbm_fetch sdbmModel
        (run sdbmModel (db, w) (Op.store key v1 :: between ++ Op.store key v2 :: after)).1 key
        (run sdbmModel (db, w) (Op.store key v1 :: between ++ Op.store key v2 :: after)).2).pvalue
          = { dptr := some v2.bytes } ∧
      (dav_dbm_fetch sdbmModel
        (run sdbmModel (db, w) (Op.store key v1 :: between ++ Op.store key v2 :: after)).1 key
        (run sdbmModel (db, w) (Op.store key v1 :: between ++ Op.store key v2 :: after)).2).pvalue.dsize
          = v2.dsize ∧
      (v1.bytes ≠ v2.bytes →
        (dav_dbm_fetch sdbmModel
          (run sdbmModel (db, w) (Op.store key v1 :: between ++ Op.store key v2 :: after)).1 key
          (run sdbmModel (db, w) (Op.store key v1 :: between ++ Op.store key v2 :: after)).2).pvalue
            ≠ { dptr := some v1.bytes })) := by
  constructor
  · intro h1
    have h := model_store_then_fetch (db, w) key v1 after h1 hnd hns
    refine ⟨h.1, h.2, ?_⟩
    rw [h.2]
    exact dsize_some_bytes v1
  · intro _ h2
    have hsplit : Op.store key v1 :: between ++ Op.store key v2 :: after =
        (Op.store key v1 :: between) ++ (Op.store key v2 :: after) := rfl
    have h := model_store_then_fetch (run sdbmModel (db, w) (Op.store key v1 :: between))
      key v2 after h2 hnd hns
    rw [← run_append, ← hsplit] at h
    refine ⟨h.1, h.2, ?_, ?_⟩
    · rw [h.2]
      exact dsize_some_bytes v2
    · intro hne
      rw [h.2]
      intro he
      apply hne
      simpa using he.symm

theorem store_store_fetch_witness :
    ((dav_dbm_fetch sdbmModel
        (run sdbmModel (sampleDb, sampleWorld) (Op.store (datumOf "k") (datumOf "v1") :: [])).1
        (datumOf "k")
        (run sdbmModel (sampleDb, sampleWorld)
          (Op.store (datumOf "k") (datumOf "v1") :: [])).2).pvalue
          = { dptr := some (datumOf "v1").bytes }) ∧
    ((dav_dbm_fetch sdbmModel
        (run sdbmModel (sampleDb, sampleWorld)
          (Op.store (datumOf "k") (datumOf "v1") :: [Op.fetch (datumOf "k")] ++
            Op.store (datumOf "k") (datumOf "v2") ::
              [Op.store (datumOf "size") (datumOf "big"), Op.delete (datumOf "color"),
               Op.firstkey])).1
        (datumOf "k")
        (run sdbmModel (sampleDb, sampleWorld)
          (Op.store (datumOf "k") (datumOf "v1") :: [Op.fetch (datumOf "k")] ++
            Op.store (datumOf "k") (datumOf "v2") ::
              [Op.store (datumOf "size") (datumOf "big"), Op.delete (datumOf "color"),
               Op.firstkey])).2).pvalue
          = { dptr := some (datumOf "v2").bytes }) :=
  ⟨((store_store_fetch sampleDb (datumOf "k") (datumOf "v1") (datumOf "v2") sampleWorld
      [] [] (by decide) (by decide)).1 (by decide)).2.1,
   ((store_store_fetch sampleDb (datumOf "k") (datumOf "v1") (datumOf "v2") sampleWorld
      [Op.fetch (datumOf "k")]
      [Op.store (datumOf "size") (datumOf "big"), Op.delete (datumOf "color"), Op.firstkey]
      (by decide) (by decide)).2 (by decide) (by decide)).2.1⟩

/-- In insert mode the finite-map engine keeps the first value of a key: the
replace mode that `dav_dbm_store` passes is what makes the second store win. -/
theorem insert_mode_keeps_first :
    (Model.sdbm_store sampleDb.file (datumOf "color") (datumOf "blue") DBM_INSERT sampleWorld).1 = 1 ∧
    (Model.sdbm_fetch
      (Model.sdbm_store sampleDb.file (datumOf "color") (datumOf "blue") DBM_INSERT sampleWorld).2.1
      (datumOf "color") sampleWorld).1 = datumOf "red" := by
  decide

/-- C4: `dav_dbm_fetch` returns no error and writes to `*pvalue` exactly the datum the
engine fetch returned, whatever the engine. Over the finite-map engine, for a
key never stored (any calls on a database that started empty, none of them a
store under the key), and for a key whose delete returned no error (followed by
any calls that do not store under it), the datum written is the absent datum and
no error is returned. -/
theorem dav_dbm_fetch_absent (E : Externs) (db db0 : dav_db) (key : dav_datum) (w : World)
    (ops : List Op) :
    ((dav_dbm_fetch E db key w).err = none ∧
      (dav_dbm_fetch E db key w).pvalue = (E.sdbm_fetch db.file (D2G key) w).1) ∧
    (db0.file.pairs = [] → (∀ op ∈ ops, op.storesKey key = false) →
      (dav_dbm_fetch sdbmModel (run sdbmModel (db0, w) ops).1 key
        (run sdbmModel (db0, w) ops).2).err = none ∧
      (dav_dbm_fetch sdbmModel (run sdbmModel (db0, w) ops).1 key
        (run sdbmModel (db0, w) ops).2).pvalue = { dptr := none }) ∧
    ((dav_dbm_delete sdbmModel db key w).err = none →
      (∀ op ∈ ops, op.storesKey key = false) →
      (dav_dbm_fetch sdbmModel (run sdbmModel (db, w) (Op.delete key :: ops)).1 key
        (run sdbmModel (db, w) (Op.delete key :: ops)).2).err = none ∧
      (dav_dbm_fetch sdbmModel (run sdbmModel (db, w) (Op.delete key :: ops)).1 key
        (run sdbmModel (db, w) (Op.delete key :: ops)).2).pvalue = { dptr := none }) := by
  refine ⟨⟨rfl, rfl⟩, ?_, ?_⟩
  · intro hfresh hops
    refine ⟨rfl, ?_⟩
    rw [(model_dav_dbm_fetch _ key _).2]
    rcases hk : key.dptr with _ | k
    · rfl
    · have hkey : key = { dptr := some k } := datum_eq_of_dptr key k hk
      have h0 : Model.getpair (db0, w).1.file.pairs k = none := by
        simp [hfresh, Model.getpair]
      have := run_getpair_none ops (db0, w) k (fun o ho => hkey ▸ hops o ho) h0
      simp only [this]
  · intro hdel hops
    refine ⟨rfl, ?_⟩
    obtain ⟨k, hk, hget⟩ := model_delete_ok db key w hdel
    have hkey : key = { dptr := some k } := datum_eq_of_dptr key k hk
    rw [(model_dav_dbm_fetch _ key _).2, hk, run_cons]
    have := run_getpair_none ops (step sdbmModel (db, w) (Op.delete key)) k
      (fun o ho => hkey ▸ hops o ho) hget
    simp only [this]

theorem dav_dbm_fetch_absent_witness :
    ((dav_dbm_fetch sdbmModel
        (run sdbmModel (emptyDb 7 "/d/.DAV/g", sampleWorld)
          [Op.store (datumOf "color") (datumOf "red"), Op.delete (datumOf "size")]).1
        (datumOf "size")
        (run sdbmModel (emptyDb 7 "/d/.DAV/g", sampleWorld)
          [Op.store (datumOf "color") (datumOf "red"), Op.delete (datumOf "size")]).2).err = none ∧
      (dav_dbm_fetch sdbmModel
        (run sdbmModel (emptyDb 7 "/d/.DAV/g", sampleWorld)
          [Op.store (datumOf "color") (datumOf "red"), Op.delete (datumOf "size")]).1
        (datumOf "size")
        (run sdbmModel (emptyDb 7 "/d/.DAV/g", sampleWorld)
          [Op.store (datumOf "color") (datumOf "red"), Op.delete (datumOf "size")]).2).pvalue
          = { dptr := none }) ∧
    ((dav_dbm_fetch sdbmModel
        (run sdbmModel (sampleDb, sampleWorld)
          [Op.delete (datumOf "color"), Op.store (datumOf "size") (datumOf "big")]).1
        (datumOf "color")
        (run sdbmModel (sampleDb, sampleWorld)
          [Op.delete (datumOf "color"), Op.store (datumOf "size") (datumOf "big")]).2).err = none ∧
      (dav_dbm_fetch sdbmModel
        (run sdbmModel (sampleDb, sampleWorld)
          [Op.delete (datumOf "color"), Op.store (datumOf "size") (datumOf "big")]).1
        (datumOf "color")
        (run sdbmModel (sampleDb, sampleWorld)
          [Op.delete (datumOf "color"), Op.store (datumOf "size") (datumOf "big")]).2).pvalue
          = { dptr := none }) :=
  ⟨(dav_dbm_fetch_absent sdbmModel sampleDb (emptyDb 7 "/d/.DAV/g") (datumOf "size") sampleWorld
      [Op.store (datumOf "color") (datumOf "red"), Op.delete (datumOf "size")]).2.1
      (by decide) (by decide),
   (dav_dbm_fetch_absent sdbmModel sampleDb sampleDb (datumOf "color") sampleWorld
      [Op.store (datumOf "size") (datumOf "big")]).2.2 (by decide) (by decide)⟩

theorem present_iff (ps : Pairs) (key : datum) :
    present ps key = true ↔ ∃ k, key.dptr = some k ∧ Model.getpair ps k ≠ none := by
  unfold present
  rcases hk : key.dptr with _ | k
  · simp
  · simp [getpair_eq_none_iff]

/-- C10: `dav_dbm_exists` returns true exactly when `dav_dbm_fetch` on the same handle
and key yields a datum with a non-null data pointer, whatever the engine, and it
leaves the handle and process state as that fetch does; its result carries no
datum. Over the finite-map engine it returns true exactly when the key is in the
database, it leaves the contents unchanged, and a key stored with a zero-length
value exists. -/
theorem dav_dbm_exists_iff (E : Externs) (db : dav_db) (key value : dav_datum) (w : World) :
    ((dav_dbm_exists E db key w).found ≠ 0 ↔ (dav_dbm_fetch E db key w).pvalue.dptr ≠ none) ∧
    (dav_dbm_exists E db key w).db = (dav_dbm_fetch E db key w).db ∧
    (dav_dbm_exists E db key w).world = (dav_dbm_fetch E db key w).world ∧
    ((dav_dbm_exists sdbmModel db key w).found ≠ 0 ↔ present db.file.pairs key = true) ∧
    (dav_dbm_exists sdbmModel db key w).db.file.pairs = db.file.pairs ∧
    (value.bytes = [] → (dav_dbm_store sdbmModel db key value w).err = none →
      (dav_dbm_exists sdbmModel (dav_dbm_store sdbmModel db key value w).db key
        (dav_dbm_store sdbmModel db key value w).world).found ≠ 0 ∧
      (dav_dbm_fetch sdbmModel (dav_dbm_store sdbmModel db key value w).db key
        (dav_dbm_store sdbmModel db key value w).world).pvalue = { dptr := some [] }) := by
  have hgen : ∀ (E : Externs) (db : dav_db) (w : World),
      ((dav_dbm_exists E db key w).found ≠ 0 ↔
        (dav_dbm_fetch E db key w).pvalue.dptr ≠ none) := by
    intro E db w
    unfold dav_dbm_exists dav_dbm_fetch
    rcases h : E.sdbm_fetch db.file (D2G key) w with ⟨v, f1, w1⟩
    by_cases hv : v.dptr = none <;> simp [hv]
  have hmodel : ∀ (db : dav_db) (w : World),
      ((dav_dbm_exists sdbmModel db key w).found ≠ 0 ↔ present db.file.pairs key = true) := by
    intro db w
    rw [hgen, (model_dav_dbm_fetch db key w).2, present_iff]
    rcases hk : key.dptr with _ | k
    · simp [Model.nullitem]
    · simp
  refine ⟨hgen E db w, rfl, rfl, hmodel db w, ?_, ?_⟩
  · simp [dav_dbm_exists, sdbmModel, sdbm_clearerr, D2G, model_fetch_pairs]
  · intro hz hst
    obtain ⟨k, hk, hget⟩ := model_store_ok db key value w hst
    constructor
    · rw [hmodel, present_iff]
      exact ⟨k, hk, by rw [hget]; simp⟩
    · rw [(model_dav_dbm_fetch _ key _).2, hk]
      simp only [hget, hz]

theorem dav_dbm_exists_iff_witness :
    (dav_dbm_exists sdbmModel
        (dav_dbm_store sdbmModel sampleDb (datumOf "flag") (datumOf "") sampleWorld).db
        (datumOf "flag")
        (dav_dbm_store sdbmModel sampleDb (datumOf "flag") (datumOf "") sampleWorld).world).found
          ≠ 0 ∧
      (dav_dbm_fetch sdbmModel
        (dav_dbm_store sdbmModel sampleDb (datumOf "flag") (datumOf "") sampleWorld).db
        (datumOf "flag")
        (dav_dbm_store sdbmModel sampleDb (datumOf "flag") (datumOf "") sampleWorld).world).pvalue
          = { dptr := some [] } :=
  (dav_dbm_exists_iff sdbmModel sampleDb (datumOf "flag") (datumOf "") sampleWorld).2.2.2.2.2
    (by decide) (by decide)

end DavDbm
